import Mathlib

/-!
# Verification of the iRacing results bot core

A shallow embedding, in Lean 4, of the data model and operations of the
iRacing_Results_Bot repository (Python), together with theorems settling the
frozen claims about its specification.  Each definition is translated from a
named function of the source tree (`sqlCommands.py`, `iRacingApi.py`,
`iRacingLaps.py`, `rateLimit.py`, `bot.py`, `iracing_oauth.py`); stateful code
becomes explicit state passing, machine integers become `Nat`/`Int`, and
fallible code returns `Option`/`Except`.
-/

/-! ## 1. The subscription store (`sqlCommands.py`)

The SQLite table `user_channels (user_id TEXT, channel_id TEXT,
last_race_time TEXT, display_name TEXT)` is modelled as a list of rows in
insertion order.  `user_id`/`channel_id` are stored as strings (the Python
code passes them through `str(...)` on insert, and SQLite's TEXT affinity
makes lookups compare them as text).  A NULL column is `none`. -/

structure UserChannelRow where
  user_id : String
  channel_id : String
  last_race_time : Option String
  display_name : Option String
deriving DecidableEq

abbrev Store := List UserChannelRow

/-- Row predicate used by the WHERE clauses `user_id = ? AND channel_id = ?`. -/
def rowMatches (u c : String) (r : UserChannelRow) : Bool :=
  r.user_id == u && r.channel_id == c

/-- Model of `sqlCommands.save_user_channel`: SELECT for an existing (user, channel)
row; if one exists return True without touching the table, otherwise INSERT a
fresh row (with NULL `last_race_time`) and return True. -/
def save_user_channel (store : Store) (user_id channel_id display_name : String) :
    Bool × Store :=
  if store.any (rowMatches user_id channel_id) then
    (true, store)
  else
    (true, store ++ [⟨user_id, channel_id, none, some display_name⟩])

/-- Model of `sqlCommands.get_last_race_time`: SELECT last_race_time ... LIMIT 1; the
first matching row's value (a NULL value and a missing row both surface as
`none`, exactly as the Python caller sees `None`). -/
def get_last_race_time (store : Store) (user_id channel_id : String) :
    Option String :=
  match store.find? (rowMatches user_id channel_id) with
  | none => none
  | some r => r.last_race_time

/-- Model of `sqlCommands.save_user_last_race_time`: UPDATE user_channels SET
last_race_time=? WHERE user_id=? AND channel_id=?.  An UPDATE that matches no
row changes nothing and still reports success. -/
def save_user_last_race_time (store : Store) (user_id : String)
    (last_race_time : Option String) (channel_id : String) : Bool × Store :=
  (true,
    store.map fun r =>
      if rowMatches user_id channel_id r then
        { r with last_race_time := last_race_time }
      else r)

/-! ## 2. Race dedup (`iRacingApi.getLastRaceIfNew`), success-path lens

This lens models the control flow and persistence of `getLastRaceIfNew` when
no exception occurs; the fetch result (`getLastRaceByCustId`) is passed in as
an `Option`.  The exception behaviour of the same function is modelled
separately in section 7. -/

/-- The only race field the dedup logic reads; `session_start_time` may be
absent from the provider payload (`race.get(...)` can yield `None`). -/
structure RaceRec where
  session_start_time : Option String
deriving DecidableEq

/-- Model of `iRacingApi.lastRaceTimeMatching`: a missing saved value means NEW
(returns False); otherwise Python's `saved == race_time` where `race_time`
may be `None`. -/
def lastRaceTimeMatching (store : Store) (cust_id : String)
    (race_time : Option String) (channel_id : String) : Bool :=
  match get_last_race_time store cust_id channel_id with
  | none => false
  | some saved => some saved == race_time

/-- Model of `iRacingApi.getLastRaceIfNew`, success path: given the fetched most
recent race, compare its start time with the persisted one and persist on a
hit.  Returns the race to announce (or `none`) and the updated store. -/
def getLastRaceIfNew (last_race : Option RaceRec) (cust_id channel_id : String)
    (store : Store) : Option RaceRec × Store :=
  match last_race with
  | none => (none, store)
  | some race =>
    if lastRaceTimeMatching store cust_id race.session_start_time channel_id then
      (none, store)
    else
      (some race,
        (save_user_last_race_time store cust_id race.session_start_time channel_id).2)

/-! ## 3. Rate-limit tracker (`iRacingClientManager` in `iRacingApi.py`)

Wall-clock time is modelled as an integer number of seconds passed
explicitly; `time.time()` becomes a parameter `now`. -/

/-- A scan over the error description mirroring
`re.search(r"retry after (\d+) seconds", ...)`: at each position, the fixed
words, then a maximal nonempty digit run, then the fixed tail.  Both patterns
used by the code have a nonempty word part, so no match starts at the end of
the string. -/
def dropPattern : List Char → List Char → Option (List Char)
  | [], s => some s
  | _ :: _, [] => none
  | p :: ps, c :: cs => if p = c then dropPattern ps cs else none

def patternLeads (p s : List Char) : Bool :=
  (dropPattern p s).isSome

def isDigitChar (c : Char) : Bool :=
  '0' ≤ c && c ≤ '9'

def digitsToNat (l : List Char) : Nat :=
  l.foldl (fun a c => a * 10 + (c.toNat - 48)) 0

/-- Try the regex `word (\d+) tail` anchored at the head of `s`. -/
def matchNumAt (word tail s : List Char) : Option Nat :=
  match dropPattern word s with
  | none => none
  | some rest =>
    let ds := rest.takeWhile isDigitChar
    if ds = [] then none
    else if patternLeads tail (rest.dropWhile isDigitChar) then
      some (digitsToNat ds)
    else none

/-- Model of `re.search`: first position (left to right) where the whole pattern
matches. -/
def reSearchNum (word tail : List Char) : List Char → Option Nat
  | [] => none
  | c :: cs =>
    match matchNumAt word tail (c :: cs) with
    | some n => some n
    | none => reSearchNum word tail cs

/-- The provider's 401 payload as the parser sees it: either something
`json.loads`/`.get` chokes on (JSONDecodeError / AttributeError, all caught),
or a decoded object whose `error_description` field may be absent
(`data.get("error_description", "")` then yields the empty string). -/
inductive RateLimitPayload
  | malformed
  | payload (error_description : Option (List Char))

/-- Model of `iRacingClientManager._parse_rate_limit_error`: extract
"retry after N seconds" and "resets in M seconds", defaulting to (60, 3600)
when parsing fails or a field is absent. -/
def parse_rate_limit_error : RateLimitPayload → Nat × Nat
  | .malformed => (60, 3600)
  | .payload d =>
    let desc := d.getD []
    let retry_after := (reSearchNum "retry after ".data " seconds".data desc).getD 60
    let resets_in := (reSearchNum "resets in ".data " seconds".data desc).getD 3600
    (retry_after, resets_in)

structure RateLimitState where
  rate_limit_until : Int
  rate_limit_reset : Int
deriving DecidableEq

/-- Model of `iRacingClientManager._set_rate_limit`: block until `now + resets_in + 10`
(ten-second safety buffer); record the reset at `now + resets_in`. -/
def set_rate_limit (error_response : RateLimitPayload) (current_time : Int) :
    RateLimitState :=
  let p := parse_rate_limit_error error_response
  { rate_limit_until := current_time + p.2 + 10
    rate_limit_reset := current_time + p.2 }

/-- Model of `iRacingClientManager.is_rate_limited`: `time.time() < _rate_limit_until`. -/
def is_rate_limited (st : RateLimitState) (now : Int) : Bool :=
  now < st.rate_limit_until

/-- Model of `iRacingClientManager.get_rate_limit_remaining`:
`max(0, _rate_limit_until - time.time())` (in whole seconds). -/
def get_rate_limit_remaining (st : RateLimitState) (now : Int) : Int :=
  max 0 (st.rate_limit_until - now)

/-! ## 4. The authenticated client wrapper (`_AuthenticatedClientWrapper`)

`iRacingApi._AuthenticatedClientWrapper.__getattr__` intercepts every method
call on the wrapped `irDataClient`.  The embedding makes the three external
behaviours explicit parameters: the outcome of the first call attempt, what
`login()` yields on the cleared manager, and the outcome of the retried call
on the client `login()` returned.  Client handles are tagged with `Nat`
identifiers; exceptions are the constructors of `CallResult`. -/

/-- Outcome of one call attempt on an underlying client method.
`accessTokenInvalid` and `jsonDecodeError` are the two exception classes the
wrapper's `except (AccessTokenInvalid, JSONDecodeError)` arm catches; every
other exception is `otherExn`. -/
inductive CallResult (α : Type)
  | ok (v : α)
  | accessTokenInvalid
  | jsonDecodeError
  | otherExn
deriving DecidableEq

/-- The singleton manager's cached state: `_client`, `_token`,
`_wrapped_client` (each possibly `None`). -/
structure ManagerCache where
  client : Option Nat
  token : Option Nat
  wrapped_client : Option Nat
deriving DecidableEq

/-- What a call through the wrapper does as seen by the caller. -/
inductive WrapOutcome (α : Type)
  | value (v : α)
  | raisedAccessTokenInvalid
  | raisedJSONDecode
  | raisedOther
deriving DecidableEq

/-- Observable side effects of one wrapped call: clearing all cached manager
state (`_client = _token = _wrapped_client = None`), calling `login()`, and
retrying the original call. -/
inductive WrapEvent
  | clearAll
  | loginCall
  | retryCall
deriving DecidableEq

/-- How a raw call outcome surfaces when it is allowed to propagate. -/
def propagateResult {α : Type} : CallResult α → WrapOutcome α
  | .ok v => .value v
  | .accessTokenInvalid => .raisedAccessTokenInvalid
  | .jsonDecodeError => .raisedJSONDecode
  | .otherExn => .raisedOther

/-- Shared handler for the wrapper's `except (AccessTokenInvalid,
JSONDecodeError)` arm: clear all cached state, call `login()`, and either
re-raise the original exception (`raise` with `login() is None`) or retry the
call once on the new client, propagating whatever the retry does. -/
def handleAuthFailure {α : Type} (original : WrapOutcome α)
    (login : ManagerCache → Option Nat × ManagerCache)
    (retry : Nat → CallResult α) :
    WrapOutcome α × ManagerCache × List WrapEvent :=
  let cleared : ManagerCache := ⟨none, none, none⟩
  match login cleared with
  | (none, st2) => (original, st2, [.clearAll, .loginCall])
  | (some c, st2) =>
    (propagateResult (retry c), st2, [.clearAll, .loginCall, .retryCall])

/-- Model of `_AuthenticatedClientWrapper.__getattr__`'s `method_wrapper`: try the
call; on `AccessTokenInvalid` or `JSONDecodeError` clear the cached state,
re-acquire a client via `login()` and retry exactly once; any other exception
(and any failure of the retried call) propagates. -/
def method_wrapper {α : Type} (first : CallResult α)
    (login : ManagerCache → Option Nat × ManagerCache)
    (retry : Nat → CallResult α) (st : ManagerCache) :
    WrapOutcome α × ManagerCache × List WrapEvent :=
  match first with
  | .ok v => (.value v, st, [])
  | .otherExn => (.raisedOther, st, [])
  | .accessTokenInvalid => handleAuthFailure .raisedAccessTokenInvalid login retry
  | .jsonDecodeError => handleAuthFailure .raisedJSONDecode login retry

/-! ## 5. Standings reconstruction (`iRacingLaps.getLapsChart`)

The data-processing core of `getLapsChart`, up to the per-entity extended
(lap, position) traces that are handed to the plotting backend.  Colours,
highlighting and axis styling are presentation-only and not modelled.  Lap
samples carry integer laps; the synthetic points introduce the fractional
laps `+0.5` and `-0.3`, so extended lap values live in `ℚ`. -/

/-- One row of `result_lap_chart_data`: the fields the algorithm reads.
`cust_id`, `lap_number` and `lap_position` are accessed with `driver[...]`
(always present in lap data); `group_id` keys team races. -/
structure LapRow where
  cust_id : Int
  group_id : Int
  lap_number : Int
  lap_position : Int
deriving DecidableEq

/-- One entry of the RACE session's `results` list, restricted to the fields
the trace construction reads.  The presence of the `driver_results` key marks
a team race. -/
structure ResultRow where
  cust_id : Option Int
  finish_position : Option Int
  team_id : Option Int
  car_class_id : Option Int
  driver_results : Option (List Int)
deriving DecidableEq

/-- Accumulated per-entity samples (`race_laps_per_entity[entity_id]`). -/
structure EntityData where
  lap_numbers : List Int
  lap_positions : List Int
  drivers : List Int
deriving DecidableEq

/-- Python `set.add` on the insertion-ordered model of the drivers set. -/
def setInsert (l : List Int) (x : Int) : List Int :=
  if l.contains x then l else l ++ [x]

/-- Ordered-dict insert (later assignment to the same key overwrites). -/
def dictInsert (acc : List (Int × Int)) (k v : Int) : List (Int × Int) :=
  if acc.any (fun p => p.1 == k) then
    acc.map fun p => if p.1 == k then (k, v) else p
  else acc ++ [(k, v)]

def dictFind? (acc : List (Int × Int)) (k : Int) : Option Int :=
  (acc.find? (fun p => p.1 == k)).map (·.2)

/-- The `for result in results` loop of the individual-race branch:
`finishing_positions[cust_id] = finish_position + 1` for every result whose
`cust_id` is truthy (non-None, nonzero) and whose finish position is
present. -/
def finishingPositionsIndiv (results : List ResultRow) : List (Int × Int) :=
  results.foldl
    (fun acc r =>
      match r.cust_id, r.finish_position with
      | some c, some f => if c ≠ 0 then dictInsert acc c (f + 1) else acc
      | _, _ => acc)
    []

/-- One iteration of the `for driver in lap_data` grouping loop, at the
computed entity id. -/
def addLapRowAt (eid : Int) (acc : List (Int × EntityData)) (row : LapRow) :
    List (Int × EntityData) :=
  if acc.any (fun p => p.1 == eid) then
    acc.map fun p =>
      if p.1 == eid then
        (p.1,
          ⟨p.2.lap_numbers ++ [row.lap_number],
            p.2.lap_positions ++ [row.lap_position],
            setInsert p.2.drivers row.cust_id⟩)
      else p
  else
    acc ++ [(eid, ⟨[row.lap_number], [row.lap_position], [row.cust_id]⟩)]

/-- One iteration of the grouping loop: `entity_id` is `group_id` for a team
race and `cust_id` for an individual race. -/
def addLapRow (team : Bool) (acc : List (Int × EntityData)) (row : LapRow) :
    List (Int × EntityData) :=
  addLapRowAt (if team then row.group_id else row.cust_id) acc row

/-- Model of `race_laps_per_entity`: samples grouped by `group_id` (team race) or
`cust_id` (individual race), in input order, building each entity's
ascending lap/position lists. -/
def groupLaps (team : Bool) (rows : List LapRow) : List (Int × EntityData) :=
  rows.foldl (addLapRow team) []

/-- Model of `leader_lap_numbers`: the laps on which position 1 was held, deduplicated
in first-occurrence order. -/
def leaderLaps (rows : List LapRow) : List Int :=
  rows.foldl
    (fun acc row =>
      if row.lap_position == 1 && !acc.contains row.lap_number then
        acc ++ [row.lap_number]
      else acc)
    []

/-- Python `max(list)` for a nonempty list, with the code's `else 0` guard
(`max_lap = max(leader_lap_numbers) if leader_lap_numbers else 0`). -/
def listMaxD : List Int → Int
  | [] => 0
  | x :: xs => xs.foldl max x

/-- The list built inside `get_drop_position`
(`positions_of_running_entities`): for every entity whose trace reaches
`dnf_lap` (`other_laps[-1] >= dnf_lap`), its position on the first occurrence
of `dnf_lap` in its lap list; a missing occurrence (ValueError from
`list.index`) or an out-of-range position access (IndexError) skips the
entity.  Note the loop runs over *all* entities, the retiree included. -/
def running_positions (dnf_lap : Int) (all_entities : List (Int × EntityData)) :
    List Int :=
  all_entities.filterMap fun p =>
    match p.2.lap_numbers.getLast? with
    | none => none
    | some lastLap =>
      if dnf_lap ≤ lastLap then
        match p.2.lap_numbers.findIdx? (fun x => x == dnf_lap) with
        | some i => p.2.lap_positions.get? i
        | none => none
      else none

/-- Model of `iRacingLaps.getLapsChart`'s inner helper `get_drop_position`: one below
the worst position among entities still running at the DNF lap, capped at the
finishing position and the entity count; the finishing position if no such
entity exists. -/
def get_drop_position (dnf_lap : Int) (all_entities_data : List (Int × EntityData))
    (finishing_pos total_entities : Int) : Int :=
  match running_positions dnf_lap all_entities_data with
  | [] => finishing_pos
  | p :: ps => min (min (ps.foldl max p + 1) finishing_pos) total_entities

/-- Lap numbers cast from `Int` into the `ℚ` lap axis of the chart. -/
def intLapsToQ (l : List Int) : List ℚ :=
  l.map fun n : Int => (n : ℚ)

/-- The per-entity trace extension of `getLapsChart`: team traces stay raw;
individual traces are extended with the DNF drop (`dnf_lap + 0.5` at the
interpolated drop position, then `max_lap` at the official finish) or with
the post-race reclassification transition (`max_lap - 0.3`, `max_lap`), or
just with the final point at `max_lap`.  The two `getLast?`-is-`none` arms
are unreachable for entities produced by `groupLaps` (their lists are
nonempty); in Python they would raise an IndexError that aborts the whole
chart. -/
def extendEntity (team : Bool) (finishing : Option Int) (max_lap : Int)
    (all_entities : List (Int × EntityData)) (total_entities : Int)
    (d : EntityData) : List ℚ × List Int :=
  let lapsQ : List ℚ := intLapsToQ d.lap_numbers
  match team, finishing with
  | true, _ => (lapsQ, d.lap_positions)
  | false, none => (lapsQ, d.lap_positions)
  | false, some finish_pos =>
    match d.lap_numbers.getLast? with
    | none => (lapsQ, d.lap_positions)
    | some dnf_lap =>
      if dnf_lap < max_lap then
        (lapsQ ++ [(dnf_lap : ℚ) + 1/2, (max_lap : ℚ)],
          d.lap_positions ++
            [get_drop_position dnf_lap all_entities finish_pos total_entities,
              finish_pos])
      else
        match d.lap_positions.getLast? with
        | none => (lapsQ, d.lap_positions)
        | some last_lap_position =>
          if last_lap_position ≠ finish_pos then
            (lapsQ ++ [(max_lap : ℚ) - 3/10, (max_lap : ℚ)],
              d.lap_positions ++ [last_lap_position, finish_pos])
          else
            (lapsQ ++ [(max_lap : ℚ)], d.lap_positions ++ [finish_pos])

/-- Model of `is_team_race`: there is a RACE session with a nonempty results list and
its first entry carries the `driver_results` key.  (With no RACE session the
flag keeps its initial `False`.) -/
def detectTeamRace (sessions : List (String × List ResultRow)) : Bool :=
  match sessions.filter (fun s => s.1 == "RACE") with
  | [] => false
  | s :: _ =>
    match s.2 with
    | [] => false
    | r :: _ => r.driver_results.isSome

/-- The results list of the first RACE session (empty when there is none). -/
def raceResults (sessions : List (String × List ResultRow)) : List ResultRow :=
  match sessions.filter (fun s => s.1 == "RACE") with
  | [] => []
  | s :: _ => s.2

/-- The data-processing pipeline of `getLapsChart`: detect the race kind,
collect finishing positions, group the lap samples, compute `max_lap` from
the leader laps, and extend every entity's trace.  For team races the code
additionally remaps team finishing positions and car classes through team
names; those maps are read only for colouring and on the individual-race
branches, never for a team trace, so they are not modelled. -/
def lapsChartTraces (sessions : List (String × List ResultRow))
    (rows : List LapRow) : List (Int × (List ℚ × List Int)) :=
  let team := detectTeamRace sessions
  let finpos := if team then [] else finishingPositionsIndiv (raceResults sessions)
  let groups := groupLaps team rows
  let max_lap := listMaxD (leaderLaps rows)
  let total : Int := groups.length
  groups.map fun p =>
    (p.1, extendEntity team (dictFind? finpos p.1) max_lap groups total p.2)

/-- Claim-side definition, modelled from C6's words: the drop position is
"one below the worst position among those running entities" where the
premise counts "at least one *other* entity still running at the retiree's
last lap" — i.e. the retiree itself is excluded — capped at the finish
position and the entity count, "and otherwise it equals the finish
position". -/
def spec_drop_position (retiree : Int) (dnf_lap : Int)
    (all_entities_data : List (Int × EntityData))
    (finishing_pos total_entities : Int) : Int :=
  match running_positions dnf_lap
      (all_entities_data.filter (fun p => p.1 ≠ retiree)) with
  | [] => finishing_pos
  | p :: ps => min (min (ps.foldl max p + 1) finishing_pos) total_entities

/-! ## 6. The polling scheduler (`bot.startLoopForUpdates`)

`startLoopForUpdates` is declared `@tasks.loop(seconds=60)` and never calls
`change_interval`, so the wake interval is the constant 60 seconds.  One
cycle walks all distinct channels and their users and runs
`processAndPostRace` (wrapped by `rateLimit.rate_limit_handler`) for each.
Provider traffic is recorded as an event trace; wall-clock time is frozen for
the duration of one cycle (a cycle is fast next to the hour-scale limits). -/

/-- Observable effects of one scheduler cycle. -/
inductive SEvent
  | recentRacesFetch (user_id : String)
  | subsessionFetch
  | lapDataFetch
  | sleepSecs (n : Int)
  | post (channel_id : String)
deriving DecidableEq

/-- Ambient state of a cycle: the tracker and the (frozen) current time. -/
structure SchedState where
  tracker : RateLimitState
  now : Int
deriving DecidableEq

/-- The external collaborators of one cycle, as oracles: whether `login()`
can produce a client when not rate limited, each user's most recent race,
and whether the formatting and chart steps succeed. -/
structure ProviderOracle where
  clientAvailable : Bool
  recentRaces : String → Option RaceRec
  formatOk : Bool
  chartOk : Bool

/-- Model of `iRacingApi.getLastRaceByCustId` as the scheduler sees it:
`get_authenticated_client()` yields `None` when rate limited or login fails
(no outbound call happens); otherwise one `stats_member_recent_races` call is
made. -/
def getLastRaceByCustIdSched (s : SchedState) (prov : ProviderOracle)
    (user_id : String) : Option RaceRec × List SEvent :=
  if is_rate_limited s.tracker s.now then (none, [])
  else if !prov.clientAvailable then (none, [])
  else (prov.recentRaces user_id, [.recentRacesFetch user_id])

/-- Model of `getLastRaceIfNew` with the fetch inlined, threading the store. -/
def getLastRaceIfNewSched (s : SchedState) (prov : ProviderOracle)
    (user_id channel_id : String) (store : Store) :
    Option RaceRec × Store × List SEvent :=
  let fetched := getLastRaceByCustIdSched s prov user_id
  let stepped := getLastRaceIfNew fetched.1 user_id channel_id store
  (stepped.1, stepped.2, fetched.2)

/-- Model of `iRacingApi.raceAndDriverData`: checks `is_rate_limited()` first and then
`login()`; only with a client does it fetch the subsession data.  The
formatting outcome is the oracle's `formatOk`. -/
def raceAndDriverDataSched (s : SchedState) (prov : ProviderOracle) :
    Option String × List SEvent :=
  if is_rate_limited s.tracker s.now then (none, [])
  else if !prov.clientAvailable then (none, [])
  else ((if prov.formatOk then some "formatted" else none), [.subsessionFetch])

/-- Model of `iRacingLaps.getLapsChart`: raises `RateLimitError(remaining)` when the
tracker reports limited (modelled as `some remaining` in the first
component), otherwise fetches the lap data and reports chart success. -/
def getLapsChartSched (s : SchedState) (prov : ProviderOracle) :
    Option Int × Bool × List SEvent :=
  if is_rate_limited s.tracker s.now then
    (some (get_rate_limit_remaining s.tracker s.now), false, [])
  else (none, prov.chartOk, [.lapDataFetch])

/-- One attempt of `bot.processAndPostRace` (the body inside the
`rate_limit_handler` wrapper): steps 1-4 of the pipeline.  The first
component is `some r` when a `RateLimitError` with `r` seconds remaining
escapes the body.  The text summary is posted even when the chart step
fails (only a raised error aborts the post). -/
def processAndPostRaceOnce (s : SchedState) (prov : ProviderOracle)
    (channel_id user_id : String) (store : Store) :
    Option Int × Store × List SEvent :=
  match getLastRaceIfNewSched s prov user_id channel_id store with
  | (none, st, ev) => (none, st, ev)
  | (some _, st, ev) =>
    match raceAndDriverDataSched s prov with
    | (none, ev2) => (none, st, ev ++ ev2)
    | (some _, ev2) =>
      match getLapsChartSched s prov with
      | (some r, _, ev3) => (some r, st, ev ++ ev2 ++ ev3)
      | (none, _, ev3) => (none, st, ev ++ ev2 ++ ev3 ++ [.post channel_id])

/-- Model of `rateLimit.rate_limit_handler` around `processAndPostRace`: on a
`RateLimitError` sleep `remaining + 5` seconds and retry, at most 3 attempts;
exhausting the attempts raises `RateLimitError(0)` (modelled as `some 0`). -/
def processAndPostRaceSched : Nat → SchedState → ProviderOracle → String →
    String → Store → Option Int × Store × List SEvent
  | 0, _, _, _, _, store => (some 0, store, [])
  | fuel + 1, s, prov, channel_id, user_id, store =>
    match processAndPostRaceOnce s prov channel_id user_id store with
    | (none, st, ev) => (none, st, ev)
    | (some r, st, ev) =>
      let again := processAndPostRaceSched fuel s prov channel_id user_id st
      (again.1, again.2.1, ev ++ [.sleepSecs (r + 5)] ++ again.2.2)

/-- Model of `sqlCommands.get_all_channel_ids`: SELECT DISTINCT channel_id, in
first-occurrence order. -/
def get_all_channel_ids (store : Store) : List String :=
  store.foldl
    (fun acc r => if acc.contains r.channel_id then acc else acc ++ [r.channel_id])
    []

/-- Model of `sqlCommands.get_users_by_channel_id`. -/
def get_users_by_channel_id (store : Store) (channel_id : String) : List String :=
  store.filterMap fun r =>
    if r.channel_id == channel_id then some r.user_id else none

/-- The inner `for user_id in all_user_ids` loop.  An exception escaping
`processAndPostRace` (the exhausted-retries `RateLimitError`) aborts the rest
of the scan — it is caught by the cycle's outer try/except. -/
def processUsersSched (s : SchedState) (prov : ProviderOracle)
    (channel_id : String) : List String → Store → Store × List SEvent
  | [], store => (store, [])
  | u :: rest, store =>
    match processAndPostRaceSched 3 s prov channel_id u store with
    | (some _, st, ev) => (st, ev)
    | (none, st, ev) =>
      let tailRes := processUsersSched s prov channel_id rest st
      (tailRes.1, ev ++ tailRes.2)

/-- The outer `for channel_id in all_channel_ids` loop. -/
def processChannelsSched (s : SchedState) (prov : ProviderOracle) :
    List String → Store → Store × List SEvent
  | [], store => (store, [])
  | c :: rest, store =>
    let this := processUsersSched s prov c (get_users_by_channel_id store c) store
    let tailRes := processChannelsSched s prov rest this.1
    (tailRes.1, this.2 ++ tailRes.2)

/-- One cycle of `bot.startLoopForUpdates`. -/
def startLoopForUpdatesCycle (s : SchedState) (prov : ProviderOracle)
    (store : Store) : Store × List SEvent :=
  processChannelsSched s prov (get_all_channel_ids store) store

/-- The scheduler's wake interval: `@tasks.loop(seconds=60)`.  Nothing in
`bot.py` alters the interval at runtime (`change_interval` is never called),
so the delay to the next wake does not depend on the tracker state. -/
def nextWakeDelaySeconds (_s : SchedState) : Nat := 60

/-- Does an event talk to the telemetry provider? -/
def isProviderCall : SEvent → Bool
  | .recentRacesFetch _ => true
  | .subsessionFetch => true
  | .lapDataFetch => true
  | .sleepSecs _ => false
  | .post _ => false

/-! ## 7. Exception-flow lens on `getLastRaceIfNew` (`iRacingApi.py`)

For claim C7 the same fetch/compare/persist pipeline is modelled with the
exceptions explicit: every collaborator may raise, and the `try/except` arms
of `getLastRaceByCustId`, `get_last_race_time`, `save_user_last_race_time`
and `getLastRaceIfNew` are translated one for one.  `PyExn` stands for the
subclasses of Python's `Exception` that occur here; `except Exception`
catches all of them (`BaseException`, e.g. KeyboardInterrupt, is outside the
model). -/

inductive PyExn
  | accessTokenInvalid
  | jsonDecodeErr
  | sqliteIntegrityErr
  | sqliteErr
  | otherExn (code : Nat)
deriving DecidableEq

/-- What `ir_client.stats_member_recent_races` does: raise, or return a
payload that is `None`, or carries a (possibly empty) races list. -/
inductive ApiCallOutcome
  | raises (e : PyExn)
  | returns (races : Option (List RaceRec))

/-- What one database read (`sqlite3` cursor work) does. -/
inductive DbReadOutcome
  | raises (e : PyExn)
  | returns (v : Option String)

/-- What one database write does. -/
inductive DbWriteOutcome
  | raises (e : PyExn)
  | succeeds

/-- The environment of one `getLastRaceIfNew` call: tracker verdict, client
availability, and the behaviour of each collaborator touched. -/
structure FetchEnv where
  rate_limited : Bool
  client_available : Bool
  recent_races : ApiCallOutcome
  db_read : DbReadOutcome
  db_write : DbWriteOutcome

/-- The `try` body of `getLastRaceByCustId`: `get_authenticated_client()` is
`None` when rate limited or login failed (return `None`); otherwise the
provider call may raise; a `None` payload or an empty races list yields
`None`, else the first race. -/
def getLastRaceByCustIdBody (env : FetchEnv) : Except PyExn (Option RaceRec) :=
  if env.rate_limited then .ok none
  else if !env.client_available then .ok none
  else
    match env.recent_races with
    | .raises e => .error e
    | .returns none => .ok none
    | .returns (some races) => .ok races.head?

/-- Model of `getLastRaceByCustId` with its two `except` arms: `AccessTokenInvalid`
clears the client and returns `None`; any other `Exception` returns `None`.
The function is total — no exception escapes it. -/
def getLastRaceByCustIdExc (env : FetchEnv) : Option RaceRec :=
  match getLastRaceByCustIdBody env with
  | .ok v => v
  | .error _ => none

/-- Model of `get_last_race_time` with its `except sqlite3.Error` arm: a SQLite error
is caught and reported as `None`; any other exception propagates. -/
def get_last_race_timeExc (o : DbReadOutcome) : Except PyExn (Option String) :=
  match o with
  | .raises .sqliteErr => .ok none
  | .raises e => .error e
  | .returns v => .ok v

/-- Model of `save_user_last_race_time` with its `except sqlite3.IntegrityError` arm:
an IntegrityError yields `False`; any other exception propagates. -/
def save_user_last_race_timeExc (o : DbWriteOutcome) : Except PyExn Bool :=
  match o with
  | .raises .sqliteIntegrityErr => .ok false
  | .raises e => .error e
  | .succeeds => .ok true

/-- The `try` body of `getLastRaceIfNew`: fetch (total), then compare via the
store read, then persist; the comparison and persistence steps may raise. -/
def getLastRaceIfNewBody (env : FetchEnv) : Except PyExn (Option RaceRec) :=
  match getLastRaceByCustIdExc env with
  | none => .ok none
  | some race =>
    match get_last_race_timeExc env.db_read with
    | .error e => .error e
    | .ok saved =>
      if (match saved with
          | none => false
          | some s => some s == race.session_start_time) then
        .ok none
      else
        match save_user_last_race_timeExc env.db_write with
        | .error e => .error e
        | .ok _ => .ok (some race)

/-- Model of `getLastRaceIfNew` with its `except Exception` arm: any exception raised
by the body is caught and turned into the `None` ("no new race") result. -/
def getLastRaceIfNewExc (env : FetchEnv) : Except PyExn (Option RaceRec) :=
  match getLastRaceIfNewBody env with
  | .ok v => .ok v
  | .error _ => .ok none

/-! ## 8. Credential masking (`iracing_oauth.mask_secret`)

`mask_secret(secret, identifier)` is
`base64(SHA-256(utf8(secret + identifier.strip().lower())))`.  Strings are
modelled as `List Char`; bytes as `Nat < 256`.  SHA-256 is implemented over
`Nat` with explicit `% 2^32` reductions (FIPS 180-4).  Python's `str.strip`
removes the standard ASCII whitespace characters and `str.lower` lowercases;
the embedding covers the ASCII range (the credentials this code masks are
ASCII identifiers). -/

def ww32 (n : Nat) : Nat := n % 4294967296

def rotr32 (x k : Nat) : Nat := ww32 ((x >>> k) ||| (x <<< (32 - k)))

def bSig0 (x : Nat) : Nat := (rotr32 x 2) ^^^ (rotr32 x 13) ^^^ (rotr32 x 22)

def bSig1 (x : Nat) : Nat := (rotr32 x 6) ^^^ (rotr32 x 11) ^^^ (rotr32 x 25)

def sSig0 (x : Nat) : Nat := (rotr32 x 7) ^^^ (rotr32 x 18) ^^^ (x >>> 3)

def sSig1 (x : Nat) : Nat := (rotr32 x 17) ^^^ (rotr32 x 19) ^^^ (x >>> 10)

def chFn (x y z : Nat) : Nat := (x &&& y) ^^^ ((x ^^^ 4294967295) &&& z)

def majFn (x y z : Nat) : Nat := (x &&& y) ^^^ (x &&& z) ^^^ (y &&& z)

/-- The 64 SHA-256 round constants of FIPS 180-4 (decimal). -/
def sha256K : List Nat :=
  [1116352408, 1899447441, 3049323471, 3921009573,
   961987163, 1508970993, 2453635748, 2870763221,
   3624381080, 310598401, 607225278, 1426881987,
   1925078388, 2162078206, 2614888103, 3248222580,
   3835390401, 4022224774, 264347078, 604807628,
   770255983, 1249150122, 1555081692, 1996064986,
   2554220882, 2821834349, 2952996808, 3210313671,
   3336571891, 3584528711, 113926993, 338241895,
   666307205, 773529912, 1294757372, 1396182291,
   1695183700, 1986661051, 2177026350, 2456956037,
   2730485921, 2820302411, 3259730800, 3345764771,
   3516065817, 3600352804, 4094571909, 275423344,
   430227734, 506948616, 659060556, 883997877,
   958139571, 1322822218, 1537002063, 1747873779,
   1955562222, 2024104815, 2227730452, 2361852424,
   2428436474, 2756734187, 3204031479, 3329325298]

/-- Big-endian byte expansion of a number into `k` bytes. -/
def bytesBE : Nat → Nat → List Nat
  | 0, _ => []
  | k + 1, n => bytesBE k (n / 256) ++ [n % 256]

/-- FIPS padding: append `0x80`, zero bytes up to 56 mod 64, and the 64-bit
big-endian bit length. -/
def sha256pad (msg : List Nat) : List Nat :=
  let len := msg.length
  let zeros := (119 - len % 64) % 64
  msg ++ [0x80] ++ List.replicate zeros 0 ++ bytesBE 8 (len * 8)

/-- Pack bytes (already a multiple of 4) into big-endian 32-bit words. -/
def wordsBE : List Nat → List Nat
  | a :: b :: c :: d :: rest => (((a * 256 + b) * 256 + c) * 256 + d) :: wordsBE rest
  | _ => []

/-- One message-schedule extension step: append
`w[i-16] + s0(w[i-15]) + w[i-7] + s1(w[i-2])` mod 2^32. -/
def extendStep (ws : List Nat) : List Nat :=
  let n := ws.length
  ws ++ [ww32 (ws.getD (n - 16) 0 + sSig0 (ws.getD (n - 15) 0) +
               ws.getD (n - 7) 0 + sSig1 (ws.getD (n - 2) 0))]

def extendWords : Nat → List Nat → List Nat
  | 0, ws => ws
  | k + 1, ws => extendWords k (extendStep ws)

/-- The eight working registers. -/
structure Hash8 where
  a : Nat
  b : Nat
  c : Nat
  d : Nat
  e : Nat
  f : Nat
  g : Nat
  h : Nat

/-- One compression round with the pair (round constant, schedule word). -/
def compressStep (st : Hash8) (kw : Nat × Nat) : Hash8 :=
  let t1 := ww32 (st.h + bSig1 st.e + chFn st.e st.f st.g + kw.1 + kw.2)
  let t2 := ww32 (bSig0 st.a + majFn st.a st.b st.c)
  ⟨ww32 (t1 + t2), st.a, st.b, st.c, ww32 (st.d + t1), st.e, st.f, st.g⟩

/-- Compress one 64-byte chunk into the running hash state. -/
def compressChunk (hs : Hash8) (chunk : List Nat) : Hash8 :=
  let ws := extendWords 48 (wordsBE chunk)
  let st := (sha256K.zip ws).foldl compressStep hs
  ⟨ww32 (hs.a + st.a), ww32 (hs.b + st.b), ww32 (hs.c + st.c),
   ww32 (hs.d + st.d), ww32 (hs.e + st.e), ww32 (hs.f + st.f),
   ww32 (hs.g + st.g), ww32 (hs.h + st.h)⟩

/-- Split a byte list into 64-byte chunks. -/
def chunks64 : List Nat → List (List Nat)
  | [] => []
  | x :: xs => (x :: xs).take 64 :: chunks64 ((x :: xs).drop 64)
termination_by l => l.length
decreasing_by simp; omega

/-- SHA-256 of a byte list (FIPS 180-4). -/
def sha256 (msg : List Nat) : List Nat :=
  let final := (chunks64 (sha256pad msg)).foldl compressChunk
    ⟨1779033703, 3144134277, 1013904242, 2773480762,
     1359893119, 2600822924, 528734635, 1541459225⟩
  bytesBE 4 final.a ++ bytesBE 4 final.b ++ bytesBE 4 final.c ++
  bytesBE 4 final.d ++ bytesBE 4 final.e ++ bytesBE 4 final.f ++
  bytesBE 4 final.g ++ bytesBE 4 final.h

/-- The base64 alphabet. -/
def b64char (n : Nat) : Char :=
  "ABCDEFGHIJKLMNOPQRSTUVWXYZabcdefghijklmnopqrstuvwxyz0123456789+/".data.getD n 'A'

/-- Standard base64 with `=` padding over bytes. -/
def b64encode : List Nat → List Char
  | [] => []
  | [a] => [b64char (a / 4), b64char (a % 4 * 16), '=', '=']
  | [a, b] => [b64char (a / 4), b64char (a % 4 * 16 + b / 16), b64char (b % 16 * 4), '=']
  | a :: b :: c :: rest =>
    [b64char (a / 4), b64char (a % 4 * 16 + b / 16),
     b64char (b % 16 * 4 + c / 64), b64char (c % 64)] ++ b64encode rest

/-- UTF-8 encoding of one code point. -/
def utf8Char (c : Char) : List Nat :=
  let n := c.toNat
  if n < 0x80 then [n]
  else if n < 0x800 then [0xC0 + n / 64, 0x80 + n % 64]
  else if n < 0x10000 then [0xE0 + n / 4096, 0x80 + n / 64 % 64, 0x80 + n % 64]
  else [0xF0 + n / 262144, 0x80 + n / 4096 % 64, 0x80 + n / 64 % 64, 0x80 + n % 64]

def utf8encode (s : List Char) : List Nat :=
  s.foldr (fun c acc => utf8Char c ++ acc) []

/-- The whitespace set of Python's `str.strip()` (ASCII range): space, tab,
LF, CR, VT, FF. -/
def isPySpace (c : Char) : Bool :=
  c.toNat = 32 || c.toNat = 9 || c.toNat = 10 || c.toNat = 13 ||
  c.toNat = 11 || c.toNat = 12

/-- Python `str.strip()`: drop whitespace from both ends. -/
def pyStrip (s : List Char) : List Char :=
  ((s.dropWhile isPySpace).reverse.dropWhile isPySpace).reverse

def pyLowerChar (c : Char) : Char :=
  if 'A' ≤ c && c ≤ 'Z' then Char.ofNat (c.toNat + 32) else c

/-- Python `str.lower()` (ASCII range). -/
def pyLower (s : List Char) : List Char :=
  s.map pyLowerChar

/-- Model of `iracing_oauth.mask_secret`: normalize the identifier (strip + lower),
concatenate `secret + normalized_id`, SHA-256, base64. -/
def mask_secret (secret identifier : List Char) : List Char :=
  let normalized_id := pyLower (pyStrip identifier)
  let combined := secret ++ normalized_id
  b64encode (sha256 (utf8encode combined))

/-- Claim-side formula, written from the spec's words ("lower-case-and-trim
the identity, concatenate `secret || normalizedIdentity` (no separator),
cryptographic hash (fixed digest algorithm), base64-encode"), for comparison
with the code-side `mask_secret`. -/
def maskSpecFormula (secret identity : List Char) : List Char :=
  b64encode (sha256 (utf8encode (secret ++ pyLower (pyStrip identity))))

/-! ## 9. Concrete scenarios

Small closed inputs used to instantiate and to refute claims. -/

/-- An individual race, two drivers, two laps.  Driver 1 leads every lap but
is classified second (post-race reclassification); driver 2 keeps position 2
on track and is classified second as well (`finish_position` is 0-based in
the provider data, the chart uses `finish_position + 1`). -/
def reclassSessions : List (String × List ResultRow) :=
  [("RACE",
    [{ cust_id := some 1, finish_position := some 1, team_id := none,
       car_class_id := none, driver_results := none },
     { cust_id := some 2, finish_position := some 1, team_id := none,
       car_class_id := none, driver_results := none }])]

/-- Lap samples for `reclassSessions`: driver 1 holds P1 on laps 1-2, driver
2 holds P2. -/
def reclassRows : List LapRow :=
  [⟨1, 0, 1, 1⟩, ⟨1, 0, 2, 1⟩, ⟨2, 0, 1, 2⟩, ⟨2, 0, 2, 2⟩]

/-- An individual race used for the drop-position analysis: drivers 1 and 2
run laps 1-3 in P1/P2, driver 3 stops after lap 1, driver 4 retires after
lap 2 while running P4. -/
def dropRows : List LapRow :=
  [⟨1, 10, 1, 1⟩, ⟨1, 10, 2, 1⟩, ⟨1, 10, 3, 1⟩,
   ⟨2, 20, 1, 2⟩, ⟨2, 20, 2, 2⟩, ⟨2, 20, 3, 2⟩,
   ⟨3, 30, 1, 3⟩,
   ⟨4, 40, 1, 4⟩, ⟨4, 40, 2, 4⟩]

/-- A team race: two teams (group ids 100 and 200) of two drivers each;
team 200 stops after lap 1. -/
def teamSessions : List (String × List ResultRow) :=
  [("RACE",
    [{ cust_id := none, finish_position := some 0, team_id := some 100,
       car_class_id := none, driver_results := some [11, 12] },
     { cust_id := none, finish_position := some 1, team_id := some 200,
       car_class_id := none, driver_results := some [21, 22] }])]

/-- Lap samples for `teamSessions`. -/
def teamRows : List LapRow :=
  [⟨11, 100, 1, 1⟩, ⟨12, 100, 2, 1⟩, ⟨11, 100, 3, 1⟩,
   ⟨21, 200, 1, 2⟩]

/-! ## 10. Theorems -/

/-- Helper: after `save_user_last_race_time`, the value read back for the
same (user, channel) is the written one when a row exists, and still `none`
when no row matches (the UPDATE touched nothing). -/
theorem get_last_race_time_after_save (u c : String) (t : Option String) :
    ∀ store : Store,
      get_last_race_time (save_user_last_race_time store u t c).2 u c =
        if store.any (rowMatches u c) then t else none := by
  intro store
  induction store with
  | nil => rfl
  | cons r rest ih =>
    by_cases hm : rowMatches u c r = true
    · have hm' : rowMatches u c { r with last_race_time := t } = true := hm
      simp [save_user_last_race_time, get_last_race_time, List.find?_cons, hm, hm',
        List.any_cons]
    · have hm' : rowMatches u c { r with last_race_time := t } = false := by
        simpa using hm
      simp only [save_user_last_race_time, List.map_cons, get_last_race_time,
        List.find?_cons, hm', if_neg, List.any_cons] at *
      simpa [hm', Bool.false_or, hm] using ih

/-- C10: registering a subscription is idempotent.  When a row for the
(user, channel) pair already exists, `save_user_channel` returns True and
leaves the store entirely unchanged (no duplicate row, no change to the
existing row's display name or last race time), and a second call with the
same arguments leaves the store where the first call left it. -/
theorem save_user_channel_idempotent (store : Store) (u c n : String)
    (h : store.any (rowMatches u c) = true) :
    save_user_channel store u c n = (true, store) ∧
    save_user_channel (save_user_channel store u c n).2 u c n =
      (true, (save_user_channel store u c n).2) := by
  constructor
  · simp [save_user_channel, h]
  · simp [save_user_channel, h]

theorem save_user_channel_idempotent_witness :
    ([⟨"11", "99", none, some "Ann"⟩] : Store).any (rowMatches "11" "99") = true ∧
    (save_user_channel [⟨"11", "99", none, some "Ann"⟩] "11" "99" "Ann" =
        (true, [⟨"11", "99", none, some "Ann"⟩]) ∧
      save_user_channel
          (save_user_channel [⟨"11", "99", none, some "Ann"⟩] "11" "99" "Ann").2
          "11" "99" "Ann" =
        (true, (save_user_channel [⟨"11", "99", none, some "Ann"⟩] "11" "99" "Ann").2)) :=
  ⟨by decide, save_user_channel_idempotent _ "11" "99" "Ann" (by decide)⟩

/-- C1 (amended): for every (user, channel) pair that has a subscription row,
`getLastRaceIfNew` applies the three-way comparison: no persisted timestamp
(the row's value is NULL) → treat as new, persist the fetched timestamp and
return the race; persisted equals fetched → write nothing and return no new
race; persisted differs → persist and return the race.  (For a pair with no
row at all the race is still returned but the UPDATE persists nothing; see
the counterexample.) -/
theorem getLastRaceIfNew_three_way (store : Store) (u c t : String) (race : RaceRec)
    (hrow : store.any (rowMatches u c) = true)
    (ht : race.session_start_time = some t) :
    (get_last_race_time store u c = none →
      getLastRaceIfNew (some race) u c store =
        (some race, (save_user_last_race_time store u (some t) c).2) ∧
      get_last_race_time (getLastRaceIfNew (some race) u c store).2 u c = some t) ∧
    (get_last_race_time store u c = some t →
      getLastRaceIfNew (some race) u c store = (none, store)) ∧
    (∀ t0, get_last_race_time store u c = some t0 → t0 ≠ t →
      getLastRaceIfNew (some race) u c store =
        (some race, (save_user_last_race_time store u (some t) c).2) ∧
      get_last_race_time (getLastRaceIfNew (some race) u c store).2 u c = some t) := by
  refine ⟨?_, ?_, ?_⟩
  · intro hget
    have hmatch : lastRaceTimeMatching store u (some t) c = false := by
      simp [lastRaceTimeMatching, hget]
    constructor
    · simp [getLastRaceIfNew, hmatch, ht]
    · simp [getLastRaceIfNew, hmatch, ht, get_last_race_time_after_save, hrow]
  · intro hget
    have hmatch : lastRaceTimeMatching store u (some t) c = true := by
      simp [lastRaceTimeMatching, hget]
    simp [getLastRaceIfNew, hmatch, ht]
  · intro t0 hget hne
    have hmatch : lastRaceTimeMatching store u (some t) c = false := by
      simp [lastRaceTimeMatching, hget, hne]
    constructor
    · simp [getLastRaceIfNew, hmatch, ht]
    · simp [getLastRaceIfNew, hmatch, ht, get_last_race_time_after_save, hrow]

theorem getLastRaceIfNew_three_way_witness :
    (([⟨"11", "99", none, some "Ann"⟩] : Store).any (rowMatches "11" "99") = true ∧
      (⟨some "T1"⟩ : RaceRec).session_start_time = some "T1") ∧
    ((get_last_race_time [⟨"11", "99", none, some "Ann"⟩] "11" "99" = none →
      getLastRaceIfNew (some ⟨some "T1"⟩) "11" "99" [⟨"11", "99", none, some "Ann"⟩] =
        (some ⟨some "T1"⟩,
          (save_user_last_race_time [⟨"11", "99", none, some "Ann"⟩] "11" (some "T1") "99").2) ∧
      get_last_race_time
          (getLastRaceIfNew (some ⟨some "T1"⟩) "11" "99" [⟨"11", "99", none, some "Ann"⟩]).2
          "11" "99" = some "T1") ∧
    (get_last_race_time [⟨"11", "99", none, some "Ann"⟩] "11" "99" = some "T1" →
      getLastRaceIfNew (some ⟨some "T1"⟩) "11" "99" [⟨"11", "99", none, some "Ann"⟩] =
        (none, [⟨"11", "99", none, some "Ann"⟩])) ∧
    (∀ t0, get_last_race_time [⟨"11", "99", none, some "Ann"⟩] "11" "99" = some t0 → t0 ≠ "T1" →
      getLastRaceIfNew (some ⟨some "T1"⟩) "11" "99" [⟨"11", "99", none, some "Ann"⟩] =
        (some ⟨some "T1"⟩,
          (save_user_last_race_time [⟨"11", "99", none, some "Ann"⟩] "11" (some "T1") "99").2) ∧
      get_last_race_time
          (getLastRaceIfNew (some ⟨some "T1"⟩) "11" "99" [⟨"11", "99", none, some "Ann"⟩]).2
          "11" "99" = some "T1")) :=
  ⟨⟨by decide, rfl⟩,
    getLastRaceIfNew_three_way [⟨"11", "99", none, some "Ann"⟩] "11" "99" "T1"
      ⟨some "T1"⟩ (by decide) rfl⟩

/-- C1, counterexample to the claim as stated: for a (user, channel) pair
with no subscription row, the fetched race is returned as new but the UPDATE
persists nothing — the read-back timestamp is still absent and a second
fetch of the identical race is again reported as new. -/
theorem getLastRaceIfNew_no_row_counterexample :
    getLastRaceIfNew (some ⟨some "T1"⟩) "7" "9" [] = (some ⟨some "T1"⟩, []) ∧
    get_last_race_time ((getLastRaceIfNew (some ⟨some "T1"⟩) "7" "9" []).2) "7" "9" = none ∧
    getLastRaceIfNew (some ⟨some "T1"⟩) "7" "9"
        ((getLastRaceIfNew (some ⟨some "T1"⟩) "7" "9" []).2) =
      (some ⟨some "T1"⟩, []) := by
  decide

/-- C2: a first AccessTokenInvalid or JSONDecodeError failure through the
authenticated client wrapper causes exactly one clearing of all cached state,
exactly one re-acquisition via `login()`, and at most one retry of the
original call: if re-acquisition fails the original exception propagates
with no retry; if it succeeds the call is retried exactly once and the
retry's outcome — success or a second failure — propagates to the caller
rather than triggering another retry. -/
theorem authenticated_wrapper_retry_once {α : Type} (first : CallResult α)
    (login : ManagerCache → Option Nat × ManagerCache) (retry : Nat → CallResult α)
    (st : ManagerCache)
    (h : first = CallResult.accessTokenInvalid ∨ first = CallResult.jsonDecodeError) :
    ((method_wrapper first login retry st).2.2.count .clearAll = 1 ∧
      (method_wrapper first login retry st).2.2.count .loginCall = 1 ∧
      (method_wrapper first login retry st).2.2.count .retryCall ≤ 1) ∧
    ((login ⟨none, none, none⟩).1 = none →
      (method_wrapper first login retry st).2.2.count .retryCall = 0 ∧
      (method_wrapper first login retry st).1 = propagateResult first) ∧
    (∀ cNew, (login ⟨none, none, none⟩).1 = some cNew →
      (method_wrapper first login retry st).2.2.count .retryCall = 1 ∧
      (method_wrapper first login retry st).1 = propagateResult (retry cNew)) := by
  have main : ∀ original : WrapOutcome α,
      ((handleAuthFailure original login retry).2.2.count WrapEvent.clearAll = 1 ∧
        (handleAuthFailure original login retry).2.2.count WrapEvent.loginCall = 1 ∧
        (handleAuthFailure original login retry).2.2.count WrapEvent.retryCall ≤ 1) ∧
      ((login ⟨none, none, none⟩).1 = none →
        (handleAuthFailure original login retry).2.2.count WrapEvent.retryCall = 0 ∧
        (handleAuthFailure original login retry).1 = original) ∧
      (∀ cNew, (login ⟨none, none, none⟩).1 = some cNew →
        (handleAuthFailure original login retry).2.2.count WrapEvent.retryCall = 1 ∧
        (handleAuthFailure original login retry).1 = propagateResult (retry cNew)) := by
    intro original
    unfold handleAuthFailure
    rcases hl : login ⟨none, none, none⟩ with ⟨o, st2⟩
    cases o with
    | none =>
      refine ⟨⟨?_, ?_, ?_⟩, ?_, ?_⟩ <;>
        simp [List.count_cons, List.count_nil, hl]
    | some cNew =>
      refine ⟨⟨?_, ?_, ?_⟩, ?_, ?_⟩ <;>
        simp [List.count_cons, List.count_nil, hl]
  rcases h with h | h <;> subst h <;>
    simpa [method_wrapper, propagateResult] using
      main _

theorem authenticated_wrapper_retry_once_witness :
    ((CallResult.accessTokenInvalid = (CallResult.accessTokenInvalid : CallResult Nat) ∨
        CallResult.accessTokenInvalid = (CallResult.jsonDecodeError : CallResult Nat))) ∧
    (((method_wrapper CallResult.accessTokenInvalid
          (fun m => (some 5, m)) (fun _ => CallResult.ok 7)
          ⟨some 1, some 2, some 3⟩).2.2.count .clearAll = 1 ∧
      (method_wrapper CallResult.accessTokenInvalid
          (fun m => (some 5, m)) (fun _ => CallResult.ok 7)
          ⟨some 1, some 2, some 3⟩).2.2.count .loginCall = 1 ∧
      (method_wrapper CallResult.accessTokenInvalid
          (fun m => (some 5, m)) (fun _ => CallResult.ok 7)
          ⟨some 1, some 2, some 3⟩).2.2.count .retryCall ≤ 1) ∧
    (((fun (m : ManagerCache) => ((some 5 : Option Nat), m)) ⟨none, none, none⟩).1 = none →
      (method_wrapper CallResult.accessTokenInvalid
          (fun m => (some 5, m)) (fun _ => CallResult.ok 7)
          ⟨some 1, some 2, some 3⟩).2.2.count .retryCall = 0 ∧
      (method_wrapper CallResult.accessTokenInvalid
          (fun m => (some 5, m)) (fun _ => CallResult.ok 7)
          ⟨some 1, some 2, some 3⟩).1 = propagateResult CallResult.accessTokenInvalid) ∧
    (∀ cNew, ((fun (m : ManagerCache) => ((some 5 : Option Nat), m)) ⟨none, none, none⟩).1 = some cNew →
      (method_wrapper CallResult.accessTokenInvalid
          (fun m => (some 5, m)) (fun _ => CallResult.ok 7)
          ⟨some 1, some 2, some 3⟩).2.2.count .retryCall = 1 ∧
      (method_wrapper CallResult.accessTokenInvalid
          (fun m => (some 5, m)) (fun _ => CallResult.ok 7)
          ⟨some 1, some 2, some 3⟩).1 =
        propagateResult ((fun _ => CallResult.ok 7) cNew))) :=
  ⟨Or.inl rfl,
    authenticated_wrapper_retry_once CallResult.accessTokenInvalid
      (fun m => (some 5, m)) (fun _ => CallResult.ok 7)
      ⟨some 1, some 2, some 3⟩ (Or.inl rfl)⟩

/-- C3: recording a rate limit parses "retry after N seconds" and
"resets in M seconds" out of the error description (with defaults N=60,
M=3600 when parsing fails or a field is absent), sets the blocked-until
timestamp to now+M+10 and the reset timestamp to now+M; immediately
afterwards the remaining-seconds query returns exactly M+10 (3610 for
M=3600), is never negative, and is non-increasing as time advances. -/
theorem rate_limit_record_and_remaining (resp : RateLimitPayload)
    (now t t1 t2 : Int) (h12 : t1 ≤ t2) :
    (set_rate_limit resp now).rate_limit_until =
      now + (parse_rate_limit_error resp).2 + 10 ∧
    (set_rate_limit resp now).rate_limit_reset =
      now + (parse_rate_limit_error resp).2 ∧
    get_rate_limit_remaining (set_rate_limit resp now) now =
      (parse_rate_limit_error resp).2 + 10 ∧
    0 ≤ get_rate_limit_remaining (set_rate_limit resp now) t ∧
    get_rate_limit_remaining (set_rate_limit resp now) t2 ≤
      get_rate_limit_remaining (set_rate_limit resp now) t1 ∧
    parse_rate_limit_error
        (.payload (some
          "please retry after 120 seconds. limit resets in 3600 seconds".data)) =
      (120, 3600) ∧
    parse_rate_limit_error (.payload (some "no numbers here".data)) = (60, 3600) ∧
    parse_rate_limit_error (.payload none) = (60, 3600) ∧
    parse_rate_limit_error .malformed = (60, 3600) := by
  refine ⟨rfl, rfl, ?_, ?_, ?_, by decide, by decide, by decide, by decide⟩
  · have hnn : (0 : Int) ≤ ((parse_rate_limit_error resp).2 : Int) + 10 := by
      positivity
    simp only [get_rate_limit_remaining, set_rate_limit]
    omega
  · exact le_max_left 0 _
  · exact max_le_max le_rfl (by omega)

theorem rate_limit_record_and_remaining_witness :
    ((1 : Int) ≤ 2) ∧
    ((set_rate_limit .malformed 0).rate_limit_until =
        0 + (parse_rate_limit_error .malformed).2 + 10 ∧
      (set_rate_limit .malformed 0).rate_limit_reset =
        0 + (parse_rate_limit_error .malformed).2 ∧
      get_rate_limit_remaining (set_rate_limit .malformed 0) 0 =
        (parse_rate_limit_error .malformed).2 + 10 ∧
      0 ≤ get_rate_limit_remaining (set_rate_limit .malformed 0) 5 ∧
      get_rate_limit_remaining (set_rate_limit .malformed 0) 2 ≤
        get_rate_limit_remaining (set_rate_limit .malformed 0) 1 ∧
      parse_rate_limit_error
          (.payload (some
            "please retry after 120 seconds. limit resets in 3600 seconds".data)) =
        (120, 3600) ∧
      parse_rate_limit_error (.payload (some "no numbers here".data)) = (60, 3600) ∧
      parse_rate_limit_error (.payload none) = (60, 3600) ∧
      parse_rate_limit_error .malformed = (60, 3600)) :=
  ⟨by decide, rate_limit_record_and_remaining .malformed 0 5 1 2 (by decide)⟩

/-- C7: `getLastRaceIfNew` never lets an exception escape.  For every
environment there is an `ok` result; and each unavailable case — rate
limited, no client, a raising provider call, a `None` payload, an empty
races list — yields "no new race" (`ok none`), whatever the rest of the
environment does. -/
theorem getLastRaceIfNew_never_raises (env : FetchEnv) (e : PyExn) :
    (∃ r, getLastRaceIfNewExc env = .ok r) ∧
    getLastRaceIfNewExc { env with rate_limited := true } = .ok none ∧
    getLastRaceIfNewExc { env with rate_limited := false, client_available := false } =
      .ok none ∧
    getLastRaceIfNewExc { env with recent_races := .raises e } = .ok none ∧
    getLastRaceIfNewExc { env with recent_races := .returns none } = .ok none ∧
    getLastRaceIfNewExc { env with recent_races := .returns (some []) } = .ok none := by
  obtain ⟨rl, ca, rr, dr, dw⟩ := env
  refine ⟨?_, ?_, ?_, ?_, ?_, ?_⟩
  · cases hb : getLastRaceIfNewBody ⟨rl, ca, rr, dr, dw⟩ with
    | ok v => exact ⟨v, by simp [getLastRaceIfNewExc, hb]⟩
    | error e2 => exact ⟨none, by simp [getLastRaceIfNewExc, hb]⟩
  · simp [getLastRaceIfNewExc, getLastRaceIfNewBody, getLastRaceByCustIdExc,
      getLastRaceByCustIdBody]
  · simp [getLastRaceIfNewExc, getLastRaceIfNewBody, getLastRaceByCustIdExc,
      getLastRaceByCustIdBody]
  · cases rl <;> cases ca <;>
      simp [getLastRaceIfNewExc, getLastRaceIfNewBody, getLastRaceByCustIdExc,
        getLastRaceByCustIdBody]
  · cases rl <;> cases ca <;>
      simp [getLastRaceIfNewExc, getLastRaceIfNewBody, getLastRaceByCustIdExc,
        getLastRaceByCustIdBody]
  · cases rl <;> cases ca <;>
      simp [getLastRaceIfNewExc, getLastRaceIfNewBody, getLastRaceByCustIdExc,
        getLastRaceByCustIdBody]

/-- C9: for a detected team race, the reconstructed output is exactly the
real per-lap samples grouped by team/group id — no synthetic retirement drop
and no finish-position point is appended to any team's trace, so a team
retiring early simply stops at its last real lap. -/
theorem team_race_traces_raw (sessions : List (String × List ResultRow))
    (rows : List LapRow) (h : detectTeamRace sessions = true) :
    lapsChartTraces sessions rows =
      (groupLaps true rows).map
        (fun p => (p.1, intLapsToQ p.2.lap_numbers, p.2.lap_positions)) := by
  unfold lapsChartTraces
  rw [h]
  simp [extendEntity]

theorem team_race_traces_raw_witness :
    detectTeamRace teamSessions = true ∧
    lapsChartTraces teamSessions teamRows =
      (groupLaps true teamRows).map
        (fun p => (p.1, intLapsToQ p.2.lap_numbers, p.2.lap_positions)) :=
  ⟨by decide, team_race_traces_raw teamSessions teamRows (by decide)⟩

/-- C8: `mask_secret` is the pure function
base64(SHA-256(utf8(secret ++ lowercase(trim(identity))))) — the spec-side
formula — and is therefore invariant under any change of the identity that
preserves its trimmed, lowercased form (case changes, surrounding
whitespace), while the secret enters the hash verbatim; in particular
mask_secret(s, "ABC ") = mask_secret(s, "abc"). -/
theorem mask_secret_correct (s i j : List Char)
    (h : pyLower (pyStrip i) = pyLower (pyStrip j)) :
    mask_secret s i = maskSpecFormula s i ∧
    mask_secret s i = mask_secret s j ∧
    mask_secret s "ABC ".data = mask_secret s "abc".data := by
  refine ⟨rfl, ?_, ?_⟩
  · unfold mask_secret
    rw [h]
  · unfold mask_secret
    have habc : pyLower (pyStrip "ABC ".data) = pyLower (pyStrip "abc".data) := by
      decide
    rw [habc]

theorem mask_secret_correct_witness :
    pyLower (pyStrip "AB ".data) = pyLower (pyStrip "ab".data) ∧
    (mask_secret "k".data "AB ".data = maskSpecFormula "k".data "AB ".data ∧
      mask_secret "k".data "AB ".data = mask_secret "k".data "ab".data ∧
      mask_secret "k".data "ABC ".data = mask_secret "k".data "abc".data) :=
  ⟨by decide, mask_secret_correct "k".data "AB ".data "ab".data (by decide)⟩

/-- Helper: with the tracker limited, one pipeline attempt makes no provider
call, changes nothing, and raises nothing — `get_authenticated_client`
returns `None` before any outbound call. -/
theorem processAndPostRaceOnce_limited (s : SchedState) (prov : ProviderOracle)
    (channel_id user_id : String) (store : Store)
    (h : is_rate_limited s.tracker s.now = true) :
    processAndPostRaceOnce s prov channel_id user_id store = (none, store, []) := by
  simp [processAndPostRaceOnce, getLastRaceIfNewSched, getLastRaceByCustIdSched, h,
    getLastRaceIfNew]

/-- Helper: the retry wrapper around a limited pipeline attempt returns at
once with no events. -/
theorem processAndPostRaceSched_limited (s : SchedState) (prov : ProviderOracle)
    (fuel : Nat) (channel_id user_id : String) (store : Store)
    (h : is_rate_limited s.tracker s.now = true) :
    processAndPostRaceSched (fuel + 1) s prov channel_id user_id store =
      (none, store, []) := by
  simp [processAndPostRaceSched, processAndPostRaceOnce_limited s prov channel_id
    user_id store h]

/-- Helper: a limited user scan leaves the store alone and emits nothing. -/
theorem processUsersSched_limited (s : SchedState) (prov : ProviderOracle)
    (channel_id : String) (h : is_rate_limited s.tracker s.now = true) :
    ∀ (users : List String) (store : Store),
      processUsersSched s prov channel_id users store = (store, []) := by
  intro users
  induction users with
  | nil => intro store; rfl
  | cons u rest ih =>
    intro store
    simp [processUsersSched,
      processAndPostRaceSched_limited s prov 2 channel_id u store h, ih store]

/-- Helper: a limited channel scan leaves the store alone and emits
nothing. -/
theorem processChannelsSched_limited (s : SchedState) (prov : ProviderOracle)
    (h : is_rate_limited s.tracker s.now = true) :
    ∀ (channels : List String) (store : Store),
      processChannelsSched s prov channels store = (store, []) := by
  intro channels
  induction channels with
  | nil => intro store; rfl
  | cons c rest ih =>
    intro store
    simp [processChannelsSched, processUsersSched_limited s prov c h, ih store]

/-- C4 (amended): when the tracker reports limited at the start of a cycle,
the cycle makes no provider call for any subscription (every per-user fetch
short-circuits at the absent client) and leaves the store untouched — but
the next wake still comes after the base 60-second interval: the
`remaining()+5` delay of `rate_limit_handler` is reached only when a
`RateLimitError` escapes the pipeline, which this cycle never raises. -/
theorem scheduler_limited_cycle (s : SchedState) (prov : ProviderOracle)
    (store : Store) (h : is_rate_limited s.tracker s.now = true) :
    startLoopForUpdatesCycle s prov store = (store, []) ∧
    ((startLoopForUpdatesCycle s prov store).2.filter isProviderCall = []) ∧
    nextWakeDelaySeconds s = 60 := by
  have hcy : startLoopForUpdatesCycle s prov store = (store, []) :=
    processChannelsSched_limited s prov h (get_all_channel_ids store) store
  exact ⟨hcy, by rw [hcy]; rfl, rfl⟩

theorem scheduler_limited_cycle_witness :
    is_rate_limited (⟨⟨3610, 3600⟩, 0⟩ : SchedState).tracker
        (⟨⟨3610, 3600⟩, 0⟩ : SchedState).now = true ∧
    (startLoopForUpdatesCycle ⟨⟨3610, 3600⟩, 0⟩
        ⟨true, fun _ => some ⟨some "T"⟩, true, true⟩
        [⟨"1", "9", none, none⟩] = ([⟨"1", "9", none, none⟩], []) ∧
      (startLoopForUpdatesCycle ⟨⟨3610, 3600⟩, 0⟩
          ⟨true, fun _ => some ⟨some "T"⟩, true, true⟩
          [⟨"1", "9", none, none⟩]).2.filter isProviderCall = [] ∧
      nextWakeDelaySeconds ⟨⟨3610, 3600⟩, 0⟩ = 60) :=
  ⟨by decide,
    scheduler_limited_cycle ⟨⟨3610, 3600⟩, 0⟩
      ⟨true, fun _ => some ⟨some "T"⟩, true, true⟩
      [⟨"1", "9", none, none⟩] (by decide)⟩

/-- C4, counterexample to the claim as stated: with the tracker limited
(3610 seconds remaining) and one subscription, the cycle indeed makes no
fetch call, but the scheduler's next wake comes after the fixed 60-second
interval, not after remaining()+5 = 3615 seconds. -/
theorem scheduler_wake_counterexample :
    is_rate_limited (⟨⟨3610, 3600⟩, 0⟩ : SchedState).tracker
        (⟨⟨3610, 3600⟩, 0⟩ : SchedState).now = true ∧
    get_rate_limit_remaining (⟨⟨3610, 3600⟩, 0⟩ : SchedState).tracker
        (⟨⟨3610, 3600⟩, 0⟩ : SchedState).now = 3610 ∧
    startLoopForUpdatesCycle ⟨⟨3610, 3600⟩, 0⟩
        ⟨true, fun _ => some ⟨some "T2"⟩, true, true⟩
        [⟨"2", "8", none, none⟩] = ([⟨"2", "8", none, none⟩], []) ∧
    (nextWakeDelaySeconds ⟨⟨3610, 3600⟩, 0⟩ : Int) ≠
      get_rate_limit_remaining (⟨⟨3610, 3600⟩, 0⟩ : SchedState).tracker
        (⟨⟨3610, 3600⟩, 0⟩ : SchedState).now + 5 := by
  decide

/-- Helper: after one grouping step every entity still has a nonempty lap
list and lap/position lists of equal length. -/
theorem addLapRowAt_wf (eid : Int) (row : LapRow) (acc : List (Int × EntityData))
    (hacc : ∀ p ∈ acc, p.2.lap_numbers ≠ [] ∧
      p.2.lap_positions.length = p.2.lap_numbers.length) :
    ∀ p ∈ addLapRowAt eid acc row, p.2.lap_numbers ≠ [] ∧
      p.2.lap_positions.length = p.2.lap_numbers.length := by
  intro p hp
  unfold addLapRowAt at hp
  split at hp
  · rcases List.mem_map.mp hp with ⟨q, hq, rfl⟩
    obtain ⟨hq1, hq2⟩ := hacc q hq
    by_cases hqe : (q.1 == eid) = true
    · simp only [hqe, if_pos]
      refine ⟨by simp, by simp [hq2]⟩
    · simp only [Bool.not_eq_true] at hqe
      simp only [hqe]
      simp only [Bool.false_eq_true, if_false]
      exact ⟨hq1, hq2⟩
  · rcases List.mem_append.mp hp with hmem | hmem
    · exact hacc p hmem
    · rcases List.mem_singleton.mp hmem with rfl
      exact ⟨by simp, by simp⟩

/-- Helper: every entity produced by the grouping loop has a nonempty lap
list and lap/position lists of equal length. -/
theorem groupLaps_wf (team : Bool) :
    ∀ (rows : List LapRow) (acc : List (Int × EntityData)),
      (∀ p ∈ acc, p.2.lap_numbers ≠ [] ∧
        p.2.lap_positions.length = p.2.lap_numbers.length) →
      ∀ p ∈ rows.foldl (addLapRow team) acc, p.2.lap_numbers ≠ [] ∧
        p.2.lap_positions.length = p.2.lap_numbers.length := by
  intro rows
  induction rows with
  | nil => intro acc hacc p hp; exact hacc p hp
  | cons r rest ih =>
    intro acc hacc p hp
    exact ih (addLapRow team acc r) (addLapRowAt_wf _ r acc hacc) p hp

/-- Helper: a member of a list is found by `findIdx?`, and the found index is
valid in any list of the same length. -/
theorem findIdx_get_exists {γ : Type} (x : Int) :
    ∀ (l : List Int) (l2 : List γ), l2.length = l.length → x ∈ l →
      ∃ i y, l.findIdx? (fun z => z == x) = some i ∧ l2.get? i = some y := by
  intro l
  induction l with
  | nil => intro l2 _ hx; cases hx
  | cons a t ih =>
    intro l2 hlen hx
    cases l2 with
    | nil => simp at hlen
    | cons b t2 =>
      by_cases hax : (a == x) = true
      · exact ⟨0, b, by simp [List.findIdx?_cons, hax], rfl⟩
      · have hx' : x ∈ t := by
          rcases List.mem_cons.mp hx with h | h
          · exact absurd (by simp [h]) hax
          · exact h
        obtain ⟨i, y, hfi, hg⟩ := ih t2 (by simpa using hlen) hx'
        refine ⟨i + 1, y, ?_, by simpa using hg⟩
        simp [List.findIdx?_cons, hax, List.findIdx?_succ, hfi]

/-- Helper: the retiree itself always qualifies as "still running" at its own
last lap, so the running-positions list of `get_drop_position` is never empty
for an entity of the grouped data. -/
theorem running_positions_ne_nil (eid : Int) (d : EntityData)
    (all_entities : List (Int × EntityData)) (hmem : (eid, d) ∈ all_entities)
    (hne : d.lap_numbers ≠ [])
    (hlen : d.lap_positions.length = d.lap_numbers.length) :
    running_positions (d.lap_numbers.getLastD 0) all_entities ≠ [] := by
  intro hnil
  have hforall := List.filterMap_eq_nil_iff.mp hnil (eid, d) hmem
  obtain ⟨L, hL⟩ : ∃ L, d.lap_numbers.getLast? = some L := by
    cases hq : d.lap_numbers.getLast? with
    | none => exact absurd (List.getLast?_eq_none_iff.mp hq) hne
    | some L => exact ⟨L, rfl⟩
  have hLD : d.lap_numbers.getLastD 0 = L := by
    simp [List.getLastD_eq_getLast?, hL]
  have hLmem : L ∈ d.lap_numbers := List.mem_of_getLast?_eq_some hL
  obtain ⟨i, y, hfi, hg⟩ :=
    findIdx_get_exists L d.lap_numbers d.lap_positions hlen hLmem
  rw [hLD] at hforall
  simp only [running_positions, hL, hfi, hg, le_refl, if_true] at hforall
  exact Option.noConfusion hforall

/-- C6 (amended): for an entity of the grouped individual-race data, the
running-positions list at its last lap is never empty — the retiree itself
always qualifies — so the "no running entity → finish position" fallback of
`get_drop_position` is unreachable; the drop position always equals the
minimum of (one below the worst position among entities still running at
that lap, the retiree included; the finish position; the total entity
count), and is therefore always ≤ the finish position and ≤ the total
entity count. -/
theorem drop_position_amended (rows : List LapRow) (eid : Int) (d : EntityData)
    (finishing_pos total_entities : Int)
    (hmem : (eid, d) ∈ groupLaps false rows) :
    running_positions (d.lap_numbers.getLastD 0) (groupLaps false rows) ≠ [] ∧
    get_drop_position (d.lap_numbers.getLastD 0) (groupLaps false rows)
        finishing_pos total_entities =
      min (min (listMaxD (running_positions (d.lap_numbers.getLastD 0)
        (groupLaps false rows)) + 1) finishing_pos) total_entities ∧
    get_drop_position (d.lap_numbers.getLastD 0) (groupLaps false rows)
        finishing_pos total_entities ≤ finishing_pos ∧
    get_drop_position (d.lap_numbers.getLastD 0) (groupLaps false rows)
        finishing_pos total_entities ≤ total_entities := by
  obtain ⟨hne, hlen⟩ :=
    groupLaps_wf false rows [] (by intro p hp; cases hp) (eid, d) hmem
  have hrun : running_positions (d.lap_numbers.getLastD 0) (groupLaps false rows) ≠ [] :=
    running_positions_ne_nil eid d (groupLaps false rows) hmem hne hlen
  refine ⟨hrun, ?_⟩
  cases hrp : running_positions (d.lap_numbers.getLastD 0) (groupLaps false rows) with
  | nil => exact absurd hrp hrun
  | cons p ps =>
    have hdp : get_drop_position (d.lap_numbers.getLastD 0) (groupLaps false rows)
        finishing_pos total_entities =
        min (min (ps.foldl max p + 1) finishing_pos) total_entities := by
      unfold get_drop_position
      rw [hrp]
    refine ⟨?_, ?_, ?_⟩
    · rw [hdp]
      simp only [hrp, listMaxD]
    · rw [hdp]
      exact le_trans (min_le_left _ _) (min_le_right _ _)
    · rw [hdp]
      exact min_le_right _ _

theorem drop_position_amended_witness :
    ((4 : Int), (⟨[1, 2], [4, 4], [4]⟩ : EntityData)) ∈ groupLaps false dropRows ∧
    (running_positions ((⟨[1, 2], [4, 4], [4]⟩ : EntityData).lap_numbers.getLastD 0)
        (groupLaps false dropRows) ≠ [] ∧
      get_drop_position ((⟨[1, 2], [4, 4], [4]⟩ : EntityData).lap_numbers.getLastD 0)
          (groupLaps false dropRows) 4 4 =
        min (min (listMaxD (running_positions
          ((⟨[1, 2], [4, 4], [4]⟩ : EntityData).lap_numbers.getLastD 0)
          (groupLaps false dropRows)) + 1) 4) 4 ∧
      get_drop_position ((⟨[1, 2], [4, 4], [4]⟩ : EntityData).lap_numbers.getLastD 0)
          (groupLaps false dropRows) 4 4 ≤ 4 ∧
      get_drop_position ((⟨[1, 2], [4, 4], [4]⟩ : EntityData).lap_numbers.getLastD 0)
          (groupLaps false dropRows) 4 4 ≤ 4) :=
  ⟨by decide, drop_position_amended dropRows 4 ⟨[1, 2], [4, 4], [4]⟩ 4 4 (by decide)⟩

/-- C6, counterexample to the claim as stated: in `dropRows` the entity with
cust id 4 retires at lap 2 while other entities (cust ids 1 and 2) are still
running there, yet the code's drop position is 4 — one below the worst
running position *including the retiree's own position 4* — while the
claim's formula over the other running entities gives min(2+1, 4, 4) = 3. -/
theorem drop_position_counterexample :
    running_positions 2 ((groupLaps false dropRows).filter (fun p => p.1 ≠ 4)) =
      [1, 2] ∧
    get_drop_position 2 (groupLaps false dropRows) 4 4 = 4 ∧
    spec_drop_position 4 2 (groupLaps false dropRows) 4 4 = 3 ∧
    get_drop_position 2 (groupLaps false dropRows) 4 4 ≠
      spec_drop_position 4 2 (groupLaps false dropRows) 4 4 := by
  decide


/-- Helper: casting the laps into `ℚ` preserves a non-decreasing chain. -/
theorem intLapsToQ_chain (l : List Int) (h : List.Chain' (· ≤ ·) l) :
    List.Chain' (· ≤ ·) (intLapsToQ l) := by
  unfold intLapsToQ
  rw [List.chain'_map]
  exact h.imp fun a b hab => by exact_mod_cast hab

/-- Helper: the last element of the cast lap list. -/
theorem intLapsToQ_getLast (l : List Int) (L : Int) (h : l.getLast? = some L) :
    (intLapsToQ l).getLast? = some ((L : ℚ)) := by
  unfold intLapsToQ
  rw [List.getLast?_map, h]
  rfl

/-- Helper: dropping the real samples from an extended trace leaves exactly
the appended synthetic points. -/
theorem intLapsToQ_drop_append (l : List Int) (rest : List ℚ) :
    (intLapsToQ l ++ rest).drop l.length = rest := by
  have hlm : (intLapsToQ l).length = l.length := List.length_map _ _
  rw [← hlm, List.drop_left]

/-- Helper: the DNF branch of the trace extension, computed. -/
theorem extendEntity_dnf (finish_pos max_lap : Int)
    (all_entities : List (Int × EntityData)) (total_entities : Int)
    (d : EntityData) (L : Int) (hL : d.lap_numbers.getLast? = some L)
    (hlt : L < max_lap) :
    extendEntity false (some finish_pos) max_lap all_entities total_entities d =
      (intLapsToQ d.lap_numbers ++ [(L : ℚ) + 1/2, (max_lap : ℚ)],
        d.lap_positions ++
          [get_drop_position L all_entities finish_pos total_entities,
            finish_pos]) := by
  unfold extendEntity
  rw [hL]
  simp only [hlt, if_pos]

/-- Helper: the completed-race branch with unchanged position, computed. -/
theorem extendEntity_done (finish_pos max_lap : Int)
    (all_entities : List (Int × EntityData)) (total_entities : Int)
    (d : EntityData) (L P : Int) (hL : d.lap_numbers.getLast? = some L)
    (hP : d.lap_positions.getLast? = some P) (hge : ¬ L < max_lap)
    (heq : P = finish_pos) :
    extendEntity false (some finish_pos) max_lap all_entities total_entities d =
      (intLapsToQ d.lap_numbers ++ [(max_lap : ℚ)],
        d.lap_positions ++ [finish_pos]) := by
  unfold extendEntity
  rw [hL, hP]
  simp [hge, heq]

/-- Helper: the post-race reclassification branch, computed. -/
theorem extendEntity_reclass (finish_pos max_lap : Int)
    (all_entities : List (Int × EntityData)) (total_entities : Int)
    (d : EntityData) (L P : Int) (hL : d.lap_numbers.getLast? = some L)
    (hP : d.lap_positions.getLast? = some P) (hge : ¬ L < max_lap)
    (hne : P ≠ finish_pos) :
    extendEntity false (some finish_pos) max_lap all_entities total_entities d =
      (intLapsToQ d.lap_numbers ++ [(max_lap : ℚ) - 3/10, (max_lap : ℚ)],
        d.lap_positions ++ [P, finish_pos]) := by
  unfold extendEntity
  rw [hL, hP]
  simp [hge, hne]

/-- C5 (amended): for an individual-race entity with sorted real samples
whose laps do not exceed `max_lap`, the extended trace is non-decreasing and
every synthetic lap value is at least the last real lap in the DNF branch
and in the completed-with-matching-position branch (and an entity with no
finishing data keeps its raw trace); but in the post-race reclassification
branch the first synthetic point `max_lap - 0.3` lies strictly below the
entity's last real lap (which equals `max_lap` there), so that extended
trace is not non-decreasing. -/
theorem trace_lap_monotonicity (finishing : Option Int) (max_lap : Int)
    (all_entities : List (Int × EntityData)) (total_entities : Int)
    (d : EntityData) (hne : d.lap_numbers ≠ [])
    (hlen : d.lap_positions.length = d.lap_numbers.length)
    (hchain : List.Chain' (· ≤ ·) d.lap_numbers)
    (hmax : ∀ x ∈ d.lap_numbers, x ≤ max_lap) :
    (finishing = none →
      (extendEntity false finishing max_lap all_entities total_entities d).1 =
        intLapsToQ d.lap_numbers) ∧
    (∀ finish_pos, finishing = some finish_pos →
      ((d.lap_numbers.getLastD 0 < max_lap ∨
          d.lap_positions.getLastD 0 = finish_pos) →
        List.Chain' (· ≤ ·)
          (extendEntity false finishing max_lap all_entities total_entities d).1 ∧
        ∀ q ∈ (extendEntity false finishing max_lap all_entities
            total_entities d).1.drop d.lap_numbers.length,
          ((d.lap_numbers.getLastD 0 : Int) : ℚ) ≤ q) ∧
      (¬ d.lap_numbers.getLastD 0 < max_lap →
        d.lap_positions.getLastD 0 ≠ finish_pos →
        (extendEntity false finishing max_lap all_entities total_entities d).1 =
          intLapsToQ d.lap_numbers ++ [(max_lap : ℚ) - 3/10, (max_lap : ℚ)] ∧
        (max_lap : ℚ) - 3/10 < ((d.lap_numbers.getLastD 0 : Int) : ℚ) ∧
        ¬ List.Chain' (· ≤ ·)
          (extendEntity false finishing max_lap all_entities total_entities d).1)) := by
  obtain ⟨L, hL⟩ : ∃ L, d.lap_numbers.getLast? = some L := by
    cases hq : d.lap_numbers.getLast? with
    | none => exact absurd (List.getLast?_eq_none_iff.mp hq) hne
    | some L => exact ⟨L, rfl⟩
  have hLD : d.lap_numbers.getLastD 0 = L := by
    simp [List.getLastD_eq_getLast?, hL]
  have hpne : d.lap_positions ≠ [] := by
    intro hnil
    rw [hnil] at hlen
    exact hne (List.eq_nil_of_length_eq_zero hlen.symm)
  obtain ⟨P, hP⟩ : ∃ P, d.lap_positions.getLast? = some P := by
    cases hq : d.lap_positions.getLast? with
    | none => exact absurd (List.getLast?_eq_none_iff.mp hq) hpne
    | some P => exact ⟨P, rfl⟩
  have hPD : d.lap_positions.getLastD 0 = P := by
    simp [List.getLastD_eq_getLast?, hP]
  have hLmem : L ∈ d.lap_numbers := List.mem_of_getLast?_eq_some hL
  have hLle : L ≤ max_lap := hmax L hLmem
  have hQchain := intLapsToQ_chain d.lap_numbers hchain
  have hQlast := intLapsToQ_getLast d.lap_numbers L hL
  constructor
  · intro hfin
    subst hfin
    rfl
  · intro finish_pos hfin
    subst hfin
    rw [hLD, hPD]
    by_cases hlt : L < max_lap
    · have hext := extendEntity_dnf finish_pos max_lap all_entities total_entities
        d L hL hlt
      have hhalf : (L : ℚ) + 1/2 ≤ (max_lap : ℚ) := by
        have h1 : ((L : ℚ) + 1) ≤ (max_lap : ℚ) := by
          exact_mod_cast Int.add_one_le_iff.mpr hlt
        linarith
      have hLleQ : (L : ℚ) ≤ (max_lap : ℚ) := by exact_mod_cast hLle
      constructor
      · intro _
        rw [hext]
        constructor
        · refine List.chain'_append.mpr ⟨hQchain, ?_, ?_⟩
          · rw [List.chain'_cons]
            exact ⟨hhalf, List.chain'_singleton _⟩
          · intro x hx y hy
            rw [hQlast] at hx
            simp only [Option.mem_def, Option.some_inj] at hx
            simp only [List.head?_cons, Option.mem_def, Option.some_inj] at hy
            subst hx
            subst hy
            linarith
        · rw [intLapsToQ_drop_append]
          intro q hq
          rcases List.mem_cons.mp hq with rfl | hq
          · linarith
          · rcases List.mem_singleton.mp hq with rfl
            exact hLleQ
      · intro hnlt _
        exact absurd hlt hnlt
    · have hLeq : L = max_lap := le_antisymm hLle (not_lt.mp hlt)
      by_cases hPf : P = finish_pos
      · have hext := extendEntity_done finish_pos max_lap all_entities
          total_entities d L P hL hP hlt hPf
        constructor
        · intro _
          rw [hext]
          constructor
          · refine List.chain'_append.mpr ⟨hQchain, List.chain'_singleton _, ?_⟩
            intro x hx y hy
            rw [hQlast] at hx
            simp only [Option.mem_def, Option.some_inj] at hx
            simp only [List.head?_cons, Option.mem_def, Option.some_inj] at hy
            subst hx
            subst hy
            exact_mod_cast hLle
          · rw [intLapsToQ_drop_append]
            intro q hq
            rcases List.mem_singleton.mp hq with rfl
            exact_mod_cast hLle
        · intro _ hne2
          exact absurd hPf hne2
      · have hext := extendEntity_reclass finish_pos max_lap all_entities
          total_entities d L P hL hP hlt hPf
        have hbelow : (max_lap : ℚ) - 3/10 < ((L : Int) : ℚ) := by
          rw [hLeq]
          norm_num
        constructor
        · intro hcond
          rcases hcond with hlt2 | hP2
          · exact absurd hlt2 hlt
          · exact absurd hP2 hPf
        · intro _ _
          refine ⟨by rw [hext], hbelow, ?_⟩
          intro hC
          rw [hext] at hC
          have hlink := (List.chain'_append.mp hC).2.2
          have hcontr := hlink ((L : Int) : ℚ) (by rw [hQlast]; rfl)
            ((max_lap : ℚ) - 3/10) (by rfl)
          rw [hLeq] at hcontr
          linarith

theorem trace_lap_monotonicity_witness :
    ((⟨[1, 2], [5, 5], [7]⟩ : EntityData).lap_numbers ≠ [] ∧
      (⟨[1, 2], [5, 5], [7]⟩ : EntityData).lap_positions.length =
        (⟨[1, 2], [5, 5], [7]⟩ : EntityData).lap_numbers.length ∧
      List.Chain' (· ≤ ·) (⟨[1, 2], [5, 5], [7]⟩ : EntityData).lap_numbers ∧
      ∀ x ∈ (⟨[1, 2], [5, 5], [7]⟩ : EntityData).lap_numbers, x ≤ 3) ∧
    ((some 3 = (none : Option Int) →
      (extendEntity false (some 3) 3 [(7, ⟨[1, 2], [5, 5], [7]⟩)] 1
          ⟨[1, 2], [5, 5], [7]⟩).1 =
        intLapsToQ (⟨[1, 2], [5, 5], [7]⟩ : EntityData).lap_numbers) ∧
    (∀ finish_pos, (some 3 : Option Int) = some finish_pos →
      (((⟨[1, 2], [5, 5], [7]⟩ : EntityData).lap_numbers.getLastD 0 < 3 ∨
          (⟨[1, 2], [5, 5], [7]⟩ : EntityData).lap_positions.getLastD 0 = finish_pos) →
        List.Chain' (· ≤ ·)
          (extendEntity false (some 3) 3 [(7, ⟨[1, 2], [5, 5], [7]⟩)] 1
            ⟨[1, 2], [5, 5], [7]⟩).1 ∧
        ∀ q ∈ (extendEntity false (some 3) 3 [(7, ⟨[1, 2], [5, 5], [7]⟩)] 1
            ⟨[1, 2], [5, 5], [7]⟩).1.drop
              (⟨[1, 2], [5, 5], [7]⟩ : EntityData).lap_numbers.length,
          (((⟨[1, 2], [5, 5], [7]⟩ : EntityData).lap_numbers.getLastD 0 : Int) : ℚ) ≤ q) ∧
      (¬ (⟨[1, 2], [5, 5], [7]⟩ : EntityData).lap_numbers.getLastD 0 < 3 →
        (⟨[1, 2], [5, 5], [7]⟩ : EntityData).lap_positions.getLastD 0 ≠ finish_pos →
        (extendEntity false (some 3) 3 [(7, ⟨[1, 2], [5, 5], [7]⟩)] 1
            ⟨[1, 2], [5, 5], [7]⟩).1 =
          intLapsToQ (⟨[1, 2], [5, 5], [7]⟩ : EntityData).lap_numbers ++
            [(3 : ℚ) - 3/10, ((3 : Int) : ℚ)] ∧
        ((3 : Int) : ℚ) - 3/10 <
          (((⟨[1, 2], [5, 5], [7]⟩ : EntityData).lap_numbers.getLastD 0 : Int) : ℚ) ∧
        ¬ List.Chain' (· ≤ ·)
          (extendEntity false (some 3) 3 [(7, ⟨[1, 2], [5, 5], [7]⟩)] 1
            ⟨[1, 2], [5, 5], [7]⟩).1))) :=
  ⟨⟨by decide, by decide,
      List.chain'_cons.mpr ⟨by norm_num, List.chain'_singleton _⟩, by decide⟩,
    trace_lap_monotonicity (some 3) 3 [(7, ⟨[1, 2], [5, 5], [7]⟩)] 1
      ⟨[1, 2], [5, 5], [7]⟩ (by decide) (by decide)
      (List.chain'_cons.mpr ⟨by norm_num, List.chain'_singleton _⟩) (by decide)⟩

/-- C5, counterexample to the claim as stated: in the reconstructed output
for `reclassSessions`/`reclassRows`, entity 1 completes the full race at
`max_lap = 2` with last-lap position 1 but finish position 2, so the code
appends the transition points 2 - 0.3 = 1.7 and 2; the extended lap sequence
[1, 2, 1.7, 2] is not non-decreasing and its first synthetic point 1.7 is
strictly below the last real lap 2. -/
theorem trace_monotonicity_counterexample :
    lapsChartTraces reclassSessions reclassRows =
      [(1, (intLapsToQ [1, 2] ++ [((2 : Int) : ℚ) - 3/10, ((2 : Int) : ℚ)],
          [1, 1, 1, 2])),
        (2, (intLapsToQ [1, 2] ++ [((2 : Int) : ℚ)], [2, 2, 2]))] ∧
    ((2 : Int) : ℚ) - 3/10 < ((2 : Int) : ℚ) ∧
    ¬ List.Chain' (· ≤ ·)
      (intLapsToQ [1, 2] ++ [((2 : Int) : ℚ) - 3/10, ((2 : Int) : ℚ)]) := by
  have hteam : detectTeamRace reclassSessions = false := by decide
  have hgroups : groupLaps false reclassRows =
      [(1, ⟨[1, 2], [1, 1], [1]⟩), (2, ⟨[1, 2], [2, 2], [2]⟩)] := by decide
  have hmaxL : listMaxD (leaderLaps reclassRows) = 2 := by decide
  have hfin1 : dictFind? (finishingPositionsIndiv (raceResults reclassSessions)) 1 =
      some 2 := by decide
  have hfin2 : dictFind? (finishingPositionsIndiv (raceResults reclassSessions)) 2 =
      some 2 := by decide
  have hext1 := extendEntity_reclass 2 2
    [(1, ⟨[1, 2], [1, 1], [1]⟩), (2, ⟨[1, 2], [2, 2], [2]⟩)] 2
    ⟨[1, 2], [1, 1], [1]⟩ 2 1 (by decide) (by decide) (by decide) (by decide)
  have hext2 := extendEntity_done 2 2
    [(1, ⟨[1, 2], [1, 1], [1]⟩), (2, ⟨[1, 2], [2, 2], [2]⟩)] 2
    ⟨[1, 2], [2, 2], [2]⟩ 2 2 (by decide) (by decide) (by decide) (by decide)
  refine ⟨?_, by norm_num, ?_⟩
  · simp only [lapsChartTraces, hteam, hgroups, hmaxL, Bool.false_eq_true, if_false,
      List.map_cons, List.map_nil, List.length_cons, List.length_nil, hfin1, hfin2]
    norm_num
    rw [hext1, hext2]
    simp [intLapsToQ]
    norm_num
  · intro h
    simp only [intLapsToQ, List.map_cons, List.map_nil, List.cons_append,
      List.nil_append] at h
    have h2 := (List.chain'_cons.mp (List.chain'_cons.mp h).2).1
    push_cast at h2
    linarith
